import Mathlib

/-!
Shallow embedding of the run-fig CLI parser core (src/analyze.ts and
src/parse.ts) and proofs about the claims of its specification.

Strings are modelled as `List Char` so that the JavaScript string
operations (indexOf, slice, startsWith, character indexing) become plain
list operations.  JavaScript `Map` objects are modelled as association
lists whose `set` replaces in place and appends new keys at the end,
which reproduces JS `Map` iteration order.  The mutable string arrays
that `parse` shares between `optionArgs` and the `foundOptions` map are
modelled with an explicit store of cells, so that pushing onto the open
option's array is visible through the map, as in the source.
-/

namespace RunFig

/-- JavaScript strings, as lists of characters. -/
abbrev Str := List Char

/-- Convert a Lean string literal to the model's string type. -/
def str (s : String) : Str := s.data

/-- JS `Map.get`. -/
def mget {α : Type} : List (Str × α) → Str → Option α
  | [], _ => none
  | (k, v) :: rest, key => if k = key then some v else mget rest key

/-- JS `Map.set`: replace in place if the key exists, else append. -/
def mset {α : Type} : List (Str × α) → Str → α → List (Str × α)
  | [], key, v => [(key, v)]
  | (k, w) :: rest, key, v =>
    if k = key then (k, v) :: rest else (k, w) :: mset rest key v

/-- JS `Map.has`. -/
def mhas {α : Type} (m : List (Str × α)) (key : Str) : Bool :=
  (mget m key).isSome

/-- `setEach` from src/collections.ts: set the same value under every
alias of a (nonempty) name list. -/
def setEach {α : Type} (m : List (Str × α)) (keys : List Str) (v : α) :
    List (Str × α) :=
  keys.foldl (fun acc k => mset acc k v) m

/-- An argument definition (`Arg` in src/types.ts); only the fields the
parser reads. -/
structure Arg where
  isOptional : Bool := false
  isVariadic : Bool := false
deriving DecidableEq, Repr

/-- The `isRepeatable?: true | number` field of an option.  `upTo 0`
corresponds to the number 0, which is falsy in JS. -/
inductive Repeatable where
  | unset
  | yes
  | upTo (n : Nat)
deriving DecidableEq, Repr

/-- JS truthiness of the `isRepeatable` field. -/
def Repeatable.truthy : Repeatable → Bool
  | .unset => false
  | .yes => true
  | .upTo n => n != 0

/-- The `requiresSeparator?: true | string` field of an option.  An
empty string is falsy in JS. -/
inductive SeparatorReq where
  | unset
  | yes
  | sep (s : Str)
deriving DecidableEq, Repr

/-- JS truthiness of the `requiresSeparator` field. -/
def SeparatorReq.truthy : SeparatorReq → Bool
  | .unset => false
  | .yes => true
  | .sep s => s != []

/-- An option (`Flag`/`Option` in src/types.ts).  `name` is the
normalized alias list (a TS single string is a singleton list); `args`
is `none` for `undefined` (falsy) and `some l` for a present value with
`makeArray` result `l` (present values, even `[]`, are truthy).  The
`action` callback is modelled only by its presence. -/
structure Flag where
  name : List Str
  args : Option (List Arg) := none
  isPersistent : Bool := false
  isRequired : Bool := false
  isRepeatable : Repeatable := .unset
  requiresSeparator : SeparatorReq := .unset
  hasAction : Bool := false
  dependsOn : Option (List Str) := none
  exclusiveOn : Option (List Str) := none
deriving DecidableEq, Repr

/-- Parser directives (src/types.ts `CommandParserDirectives`).  The
field written `subcommandsMatchUniquePrefix` in the source is called
`subcommandsMatchUniquePfx` here.  `optionArgSeparators` is `none` when
absent; a present value is the `makeArray` result (a present empty
array is truthy in JS and clears the separator list). -/
structure Directives where
  optionArgSeparators : Option (List Str) := none
  flagsArePosixNoncompliant : Option Bool := none
  optionsMustPrecedeArguments : Bool := false
  subcommandsMatchUniquePfx : Bool := false
deriving DecidableEq, Repr

/-- A command / subcommand node (`Command` in src/types.ts).  The
`action` callback is modelled by its presence. -/
inductive Command where
  | mk (name : List Str) (args : Option (List Arg)) (options : List Flag)
      (subcommands : Option (List Command))
      (parserDirectives : Option Directives)
      (hasAction : Bool) (requiresSubcommand : Bool)

def Command.name : Command → List Str
  | .mk n _ _ _ _ _ _ => n

def Command.args : Command → Option (List Arg)
  | .mk _ a _ _ _ _ _ => a

def Command.options : Command → List Flag
  | .mk _ _ o _ _ _ _ => o

def Command.subcommands : Command → Option (List Command)
  | .mk _ _ _ s _ _ _ => s

def Command.parserDirectives : Command → Option Directives
  | .mk _ _ _ _ d _ _ => d

def Command.hasAction : Command → Bool
  | .mk _ _ _ _ _ a _ => a

def Command.requiresSubcommand : Command → Bool
  | .mk _ _ _ _ _ _ r => r

/-- The token stream elements produced by the analyzer (src/analyze.ts).
The source names the subcommand token kind `"subcommand"` (`"command"`
in the state machine's vocabulary); both denote this constructor. -/
inductive Token where
  | arg (index start stop : Nat) (literal : Str)
  | argSeparator (index start stop : Nat) (literal : Str)
  | subcommand (index start stop : Nat) (literal : Str) (cmd : Command)
  | option (index start stop : Nat) (literal : Str) (opt : Flag)
  | unknownOption (index start stop : Nat) (literal : Str)
      (validOptions : List Str)
  | optionArg (index start stop : Nat) (literal : Str) (optName : Str)
      (separator : Str)

/-- The analyzer's mutable scope (the local variables of `analyze` in
src/analyze.ts).  The source's `subcommandsMatchUniquePrefix` variable
is called `subcommandsMatchUniquePfx` here. -/
structure AnalyzeState where
  localSubcommands : Option (List Command)
  localOptions : List (Str × Flag)
  persistentOptions : List (Str × Flag)
  localRequiredOptions : List (Str × Flag)
  persistentRequiredOptions : List (Str × Flag)
  separators : List Str
  hasFoundArg : Bool
  posixCompliantOptions : Bool
  subcommandsMatchUniquePfx : Bool
  optionsMustPrecedeArguments : Bool
  hasUsedNonPersistentOption : Bool

/-- Auxiliary loop for `strIndexOf`. -/
def strIndexOfAux (pat : Str) : Str → Nat → Option Nat
  | [], i => if pat.isPrefixOf ([] : Str) then some i else none
  | c :: t, i =>
    if pat.isPrefixOf (c :: t) then some i else strIndexOfAux pat t (i + 1)

/-- JS `String.prototype.indexOf`, returning `none` for -1. -/
def strIndexOf (hay pat : Str) : Option Nat := strIndexOfAux pat hay 0

/-- `getOption` from `analyze`: local scope first, then persistent. -/
def getOption (st : AnalyzeState) (name : Str) : Option Flag :=
  match mget st.localOptions name with
  | some o => some o
  | none => mget st.persistentOptions name

/-- `hasOption` from `analyze`. -/
def hasOption (st : AnalyzeState) (name : Str) : Bool :=
  mhas st.localOptions name || mhas st.persistentOptions name

/-- Outcome of scanning one command's alias list against a token, as the
inner loop of `getSubcommand` does: an exact alias match returns the
command at once; the first alias that merely starts with the token stops
the scan of the remaining aliases (`continue commands` in the source). -/
inductive AliasScan where
  | exact
  | prefixHit
  | noMatch
deriving DecidableEq, Repr

/-- Scan a command's aliases in order, mirroring the per-command loop of
the unique-prefix branch of `getSubcommand`. -/
def scanAliases (name : Str) : List Str → AliasScan
  | [] => .noMatch
  | n :: rest =>
    if n = name then .exact
    else if name.isPrefixOf n then .prefixHit
    else scanAliases name rest

/-- The unique-prefix branch of `getSubcommand`: return an exact match
at once, collect commands with a matching alias head, and accept the
collection only when exactly one command matched. -/
def getSubcommandUnique (name : Str) :
    List Command → List Command → Option Command
  | [], found => if found.length = 1 then found.head? else none
  | c :: rest, found =>
    match scanAliases name c.name with
    | .exact => some c
    | .prefixHit => getSubcommandUnique name rest (found ++ [c])
    | .noMatch => getSubcommandUnique name rest found

/-- `getSubcommand` from `analyze` (src/analyze.ts lines 254-309). -/
def getSubcommand (st : AnalyzeState) (name : Str) : Option Command :=
  match st.localSubcommands with
  | none => none
  | some cmds =>
    if !st.subcommandsMatchUniquePfx then
      cmds.find? (fun c => c.name.contains name)
    else
      getSubcommandUnique name cmds []

/-- The option-registration loop shared by `updateCurrentCommand` and
the empty-input branch of `analyze`. -/
def mergeOptions (st : AnalyzeState) (options : List Flag) : AnalyzeState :=
  options.foldl
    (fun st option =>
      if option.isPersistent then
        let st := { st with
          persistentOptions := setEach st.persistentOptions option.name option }
        if option.isRequired then
          { st with persistentRequiredOptions :=
              setEach st.persistentRequiredOptions option.name option }
        else st
      else
        let st := { st with
          localOptions := setEach st.localOptions option.name option }
        if option.isRequired then
          { st with localRequiredOptions :=
              setEach st.localRequiredOptions option.name option }
        else st)
    st

/-- `updateCurrentCommand` from `analyze` (src/analyze.ts lines
314-350): merge the new command's options, replace the active
subcommand list, and apply the command's parser directives. -/
def updateCurrentCommand (st : AnalyzeState) (command : Command) :
    AnalyzeState :=
  let st := mergeOptions st command.options
  let st := { st with localSubcommands := command.subcommands }
  match command.parserDirectives with
  | none => st
  | some directives =>
    let st :=
      match directives.optionArgSeparators with
      | some seps => { st with separators := seps }
      | none => st
    let st :=
      if directives.subcommandsMatchUniquePfx then
        { st with subcommandsMatchUniquePfx := true }
      else st
    let st :=
      if directives.optionsMustPrecedeArguments then
        { st with optionsMustPrecedeArguments := true }
      else st
    match directives.flagsArePosixNoncompliant with
    | some b => { st with posixCompliantOptions := !b }
    | none => st

/-- The `validOptions` payload of an unknown-option token:
`[...localOptions.keys(), ...persistentOptions.keys()]`. -/
def validOptions (st : AnalyzeState) : List Str :=
  st.localOptions.map Prod.fst ++ st.persistentOptions.map Prod.fst

/-- The `chars:` loop of `analyze` (src/analyze.ts lines 411-449),
walking a `-xyz` / `+xyz` token character by character.  `chars` is the
token's suffix from position `char`, so the current character is
`chars.head` and `token.slice(char + 1)` is `chars.tail`. -/
def chainLoop (index : Nat) (token : Str) (leading : Str) :
    AnalyzeState → List Char → Nat → AnalyzeState × List Token
  | st, [], _ => (st, [])
  | st, c :: rest, char =>
    let optionName := leading ++ [c]
    match getOption st optionName with
    | none =>
      let tok := Token.unknownOption index char (char + 1) optionName
        (validOptions st)
      let (st', toks) := chainLoop index token leading st rest (char + 1)
      (st', tok :: toks)
    | some option =>
      let st :=
        if !st.hasUsedNonPersistentOption && !option.isPersistent then
          { st with hasUsedNonPersistentOption := true }
        else st
      let optTok := Token.option index char (char + 1) optionName option
      if option.args.isSome && rest != [] then
        let sep :=
          (st.separators.find? (fun sep => sep.isPrefixOf rest)).getD []
        let argStartOffset := char + sep.length
        let argTok := Token.optionArg index (argStartOffset + 1) token.length
          (rest.drop sep.length) optionName sep
        (st, [optTok, argTok])
      else
        let (st', toks) := chainLoop index token leading st rest (char + 1)
        (st', optTok :: toks)

/-- The `separators:` loop of the long-option branch (src/analyze.ts
lines 463-474): every separator that occurs anywhere in the token
overwrites the previously found one, so the last declared separator
with an occurrence wins, at its first occurrence position. -/
def findSeparator (separators : List Str) (token : Str) :
    Option (Str × Nat) :=
  separators.foldl
    (fun acc sep =>
      match strIndexOf token sep with
      | none => acc
      | some i => some (sep, i))
    none

/-- One iteration of the `tokens:` loop of `analyze` for a token other
than the literal `--` (src/analyze.ts lines 371-553). -/
def analyzeStep (st : AnalyzeState) (index : Nat) (token : Str) :
    AnalyzeState × List Token :=
  let fallthroughArg : AnalyzeState × List Token :=
    ({ st with hasFoundArg := true },
      [Token.arg index 0 token.length token])
  let subMatch : Option Command :=
    if !st.hasFoundArg && !st.hasUsedNonPersistentOption &&
        st.localSubcommands.isSome then
      getSubcommand st token
    else none
  match subMatch with
  | some command =>
    let st := { st with localOptions := [] }
    let st := updateCurrentCommand st command
    (st, [Token.subcommand index 0 token.length token command])
  | none =>
    if st.optionsMustPrecedeArguments && st.hasFoundArg then
      fallthroughArg
    else if st.posixCompliantOptions && token.length > 1 &&
        ((['-'] : Str).isPrefixOf token || (['+'] : Str).isPrefixOf token) &&
        !(['-', '-'] : Str).isPrefixOf token then
      -- 2.a: single `-` / `+` option with an attached argument.  Note
      -- that unlike every other option-match site, this branch does not
      -- set `hasUsedNonPersistentOption` in the source.
      let leadingChar := token.take 1
      let isDashWithArg :=
        match getOption st leadingChar with
        | some dashOption =>
          dashOption.args.isSome && !hasOption st (token.take 2)
        | none => false
      if isDashWithArg then
        match getOption st leadingChar with
        | some dashOption =>
          (st, [Token.option index 0 1 leadingChar dashOption,
            Token.optionArg index 1 token.length (token.drop 1)
              leadingChar []])
        | none => fallthroughArg
      else
        -- 2.b: chainable short options.
        chainLoop index token leadingChar st (token.drop 1) 1
    else if !st.posixCompliantOptions ||
        (token.length > 2 && (['-', '-'] : Str).isPrefixOf token) then
      -- 2.c: long option or posix-noncompliant option.
      match findSeparator st.separators token with
      | some (foundSep, foundSepIndex) =>
        let optionName := token.take foundSepIndex
        match getOption st optionName with
        | some option =>
          let st :=
            if !st.hasUsedNonPersistentOption && !option.isPersistent then
              { st with hasUsedNonPersistentOption := true }
            else st
          (st, [Token.option index 0 foundSepIndex (token.take foundSepIndex)
              option,
            Token.optionArg index (foundSepIndex + foundSep.length)
              token.length (token.drop (foundSepIndex + foundSep.length))
              optionName foundSep])
        | none =>
          if st.posixCompliantOptions then
            (st, [Token.unknownOption index 0 foundSepIndex optionName
                (validOptions st),
              Token.optionArg index (foundSepIndex + foundSep.length)
                token.length (token.drop (foundSepIndex + foundSep.length))
                optionName foundSep])
          else fallthroughArg
      | none =>
        match getOption st token with
        | some option =>
          let st :=
            if !st.hasUsedNonPersistentOption && !option.isPersistent then
              { st with hasUsedNonPersistentOption := true }
            else st
          (st, [Token.option index 0 token.length token option])
        | none =>
          if st.posixCompliantOptions then
            (st, [Token.unknownOption index 0 token.length token
                (validOptions st)])
          else fallthroughArg
    else fallthroughArg

/-- The tail of the `--` branch: every remaining input token is emitted
verbatim as a positional-argument token. -/
def argsFrom : List Str → Nat → List Token
  | [], _ => []
  | t :: rest, i => Token.arg i 0 t.length t :: argsFrom rest (i + 1)

/-- The `tokens:` loop of `analyze` (src/analyze.ts lines 355-553). -/
def analyzeLoop (st : AnalyzeState) : List Str → Nat →
    AnalyzeState × List Token
  | [], _ => (st, [])
  | token :: rest, index =>
    if token = (['-', '-'] : Str) then
      (st, Token.argSeparator index 0 token.length token ::
        argsFrom rest (index + 1))
    else
      let (st', toks) := analyzeStep st index token
      let (st'', toks') := analyzeLoop st' rest (index + 1)
      (st'', toks ++ toks')

/-- The four option-scope maps returned by `analyze`. -/
structure FinalState where
  localOptions : List (Str × Flag)
  persistentOptions : List (Str × Flag)
  localRequiredOptions : List (Str × Flag)
  persistentRequiredOptions : List (Str × Flag)

/-- Project an analyzer state onto the returned maps. -/
def AnalyzeState.finalState (st : AnalyzeState) : FinalState :=
  ⟨st.localOptions, st.persistentOptions, st.localRequiredOptions,
    st.persistentRequiredOptions⟩

/-- The analyzer state before `updateCurrentCommand(spec)` runs. -/
def baseAnalyzeState : AnalyzeState where
  localSubcommands := none
  localOptions := []
  persistentOptions := []
  localRequiredOptions := []
  persistentRequiredOptions := []
  separators := [['=']]
  hasFoundArg := false
  posixCompliantOptions := true
  subcommandsMatchUniquePfx := false
  optionsMustPrecedeArguments := false
  hasUsedNonPersistentOption := false

/-- The analyzer state after `updateCurrentCommand(spec)`. -/
def initAnalyzeState (spec : Command) : AnalyzeState :=
  updateCurrentCommand baseAnalyzeState spec

/-- `analyze` from src/analyze.ts.  The empty-input fast path builds the
option maps directly from the root's options without processing
directives, exactly as the source does. -/
def analyze (input : List Str) (spec : Command) : FinalState × List Token :=
  match input with
  | [] => ((mergeOptions baseAnalyzeState spec.options).finalState, [])
  | token :: rest =>
    let (st, toks) := analyzeLoop (initAnalyzeState spec) (token :: rest) 0
    (st.finalState, toks)

/-- Tags recording which actions were registered, in order.  Action
callbacks themselves are out of the parser's observable behavior, so
they are modelled by their origin. -/
inductive ActionTag where
  | ofCommand
  | usage
  | ofOption
deriving DecidableEq, Repr

/-- The distinct messages carried by the source's generic `ParseError`
(src/parse.ts); the two `incorrectSeparator` fields are the mandated
separator and the one actually used. -/
inductive PMsg where
  | repeatedOption
  | tooManyRepetitions
  | unexpectedArgSeparator
  | unexpectedToken
  | incorrectSeparator (required got : Str)
  | invalidStateNoArray
  | invalidStateNoSeparator
  | dependsOnMissing (option dependency : Str)
  | exclusiveOnPresent (option excluded : Str)
deriving DecidableEq, Repr

/-- The error taxonomy of src/errors.ts.  Each constructor carries the
payload fields the corresponding class stores (the command path of the
`ErrorContext` is not modelled). -/
inductive ParseErr where
  | parseError (msg : PMsg)
  | unknownOption (literal : Str) (validOptions : List Str)
  | invalidOptionArg (literal : Str) (optName : Str)
  | tooManyArguments (literal : Str)
  | tooFewOptionArguments (min : Nat) (max : Option Nat)
  | tooFewArguments (min : Nat) (max : Option Nat)
  | missingRequiredOption (name : Str)
deriving DecidableEq, Repr

/-- `getMinArgs` from src/parse.ts: the length of the leading run of
non-optional argument definitions. -/
def getMinArgs : List Arg → Nat
  | [] => 0
  | a :: rest => if a.isOptional then 0 else getMinArgs rest + 1

/-- `getMaxArgs` from src/parse.ts: `none` models `Infinity` (some
argument is variadic); otherwise the number of argument definitions. -/
def getMaxArgs (args : List Arg) : Option Nat :=
  if args.any (fun a => a.isVariadic) then none else some args.length

/-- `n >= max` where `max` may be `Infinity` (`none`). -/
def geMax (n : Nat) : Option Nat → Bool
  | none => false
  | some m => n ≥ m

/-- `n < max` where `max` may be `Infinity` (`none`). -/
def ltMax (n : Nat) : Option Nat → Bool
  | none => true
  | some m => n < m

/-- The state machine's states (`State` in src/parse.ts). -/
inductive PState where
  | parseArgs
  | parseOptionArgs
  | parseOptionArgRequireSeparator
deriving DecidableEq, Repr

/-- The mutable locals of `parse` (src/parse.ts lines 92-126).  The
`string[]` arrays stored in `foundOptions` are mutable and shared with
`optionArgs` in the source, so they are modelled as indices into a
`store` of cells: `foundOptionCells` maps a name to its cell, and
`optionArgsCell` is the open option's cell (`null` when absent). -/
structure ParseSt where
  path : List Command
  actions : List ActionTag
  optionActions : List ActionTag
  commandArgsMin : Nat
  commandArgsMax : Option Nat
  foundArgs : List Str
  foundOptionCells : List (Str × Nat)
  store : List (List Str)
  state : PState
  optionArgsCell : Option Nat
  optionArgsMin : Nat
  optionArgsMax : Option Nat
  requiredSeparator : SeparatorReq
  argSeparatorIndex : Int
  dependsOnOptions : List Flag
  exclusiveOnOptions : List Flag

/-- Read a cell of the store. -/
def cellGet (store : List (List Str)) (i : Nat) : List Str :=
  store.getD i []

/-- `arr.push(v)` on the array in cell `i`. -/
def cellPush (store : List (List Str)) (i : Nat) (v : Str) :
    List (List Str) :=
  store.set i (cellGet store i ++ [v])

/-- `has` from src/parse.ts: an alias list is looked up by its first
alias only. -/
def hasName (m : List (Str × Nat)) (name : List Str) : Bool :=
  mhas m (name.headD [])

/-- `get` from src/parse.ts. -/
def getName (m : List (Str × Nat)) (name : List Str) : Option Nat :=
  mget m (name.headD [])

/-- `parseOption` from src/parse.ts (lines 128-186). -/
def parseOption (st : ParseSt) (option : Flag) : Except ParseErr ParseSt :=
  if !option.isRepeatable.truthy && hasName st.foundOptionCells option.name then
    .error (.parseError .repeatedOption)
  else
    let st :=
      if option.exclusiveOn.isSome then
        { st with exclusiveOnOptions := st.exclusiveOnOptions ++ [option] }
      else st
    let st :=
      if option.dependsOn.isSome then
        { st with dependsOnOptions := st.dependsOnOptions ++ [option] }
      else st
    let st :=
      if option.hasAction then
        { st with optionActions := st.optionActions ++ [.ofOption] }
      else st
    if option.isRepeatable.truthy then
      let maxRepeat : Option Nat :=
        match option.isRepeatable with
        | .yes => none
        | .upTo n => some n
        | .unset => some 0
      match getName st.foundOptionCells option.name with
      | none =>
        let cell := st.store.length
        let st := { st with
          store := st.store ++ [[]],
          foundOptionCells := setEach st.foundOptionCells option.name cell }
        if geMax (cellGet st.store cell).length maxRepeat then
          .error (.parseError .tooManyRepetitions)
        else
          .ok { st with store := cellPush st.store cell [] }
      | some cell =>
        if geMax (cellGet st.store cell).length maxRepeat then
          .error (.parseError .tooManyRepetitions)
        else
          .ok { st with store := cellPush st.store cell [] }
    else
      let args := option.args.getD []
      let optionArgsMin := getMinArgs args
      let optionArgsMax := getMaxArgs args
      let cell := st.store.length
      let st := { st with
        optionArgsMin := optionArgsMin,
        optionArgsMax := optionArgsMax,
        store := st.store ++ [[]],
        foundOptionCells := setEach st.foundOptionCells option.name cell,
        optionArgsCell := some cell }
      if optionArgsMax = some 0 then
        .ok { st with optionArgsCell := none, state := .parseArgs }
      else if option.requiresSeparator.truthy then
        .ok { st with
              state := .parseOptionArgRequireSeparator,
              requiredSeparator := option.requiresSeparator }
      else
        .ok { st with state := .parseOptionArgs }

/-- The command at `path[path.length - 1]`. -/
def lastCommand (st : ParseSt) : Command :=
  (st.path.getLast?).getD (.mk [] none [] none none false false)

/-- `parseArg` from src/parse.ts (lines 188-199). -/
def parseArg (st : ParseSt) (literal : Str) : Except ParseErr ParseSt :=
  if !(lastCommand st).requiresSubcommand &&
      geMax st.foundArgs.length st.commandArgsMax then
    .error (.tooManyArguments literal)
  else
    .ok { st with foundArgs := st.foundArgs ++ [literal] }

/-- `parseArgSeparator` from src/parse.ts (lines 201-210). -/
def parseArgSeparator (st : ParseSt) : Except ParseErr ParseSt :=
  if geMax st.foundArgs.length st.commandArgsMax then
    .error (.parseError .unexpectedArgSeparator)
  else
    .ok { st with
          argSeparatorIndex := (st.foundArgs.length : Int),
          state := .parseArgs }

/-- `parseCommand` from src/parse.ts (lines 212-222). -/
def parseCommand (st : ParseSt) (command : Command) : ParseSt :=
  let args := command.args.getD []
  let st := { st with
    path := st.path ++ [command],
    commandArgsMin := getMinArgs args,
    commandArgsMax := getMaxArgs args }
  if command.hasAction then
    { st with actions := st.actions ++ [.ofCommand] }
  else if command.requiresSubcommand then
    { st with actions := st.actions ++ [.usage] }
  else st

/-- One iteration of the token-consumption loop of `parse`
(src/parse.ts lines 228-390).  The `assert` calls of the source are
modelled as generic parse errors (they throw in the source too, albeit
as plain `Error`s); with tokens produced by `analyze` they never fire. -/
def stepToken (st : ParseSt) (token : Token) : Except ParseErr ParseSt :=
  match st.state with
  | .parseArgs =>
    match token with
    | .subcommand _ _ _ _ cmd => .ok (parseCommand st cmd)
    | .arg _ _ _ lit => parseArg st lit
    | .option _ _ _ _ opt => parseOption st opt
    | .unknownOption _ _ _ lit valid => .error (.unknownOption lit valid)
    | .optionArg _ _ _ lit optName _ => .error (.invalidOptionArg lit optName)
    | .argSeparator _ _ _ _ => parseArgSeparator st
  | .parseOptionArgs =>
    match st.optionArgsCell with
    | none => .error (.parseError .invalidStateNoArray)
    | some cell =>
      match token with
      | .optionArg _ _ _ lit _ _ =>
        if ltMax (cellGet st.store cell).length st.optionArgsMax then
          .ok { st with store := cellPush st.store cell lit }
        else
          let st := { st with optionArgsCell := none, state := .parseArgs }
          parseArg st lit
      | .arg _ _ _ lit =>
        if ltMax (cellGet st.store cell).length st.optionArgsMax then
          .ok { st with store := cellPush st.store cell lit }
        else
          let st := { st with optionArgsCell := none, state := .parseArgs }
          parseArg st lit
      | .option _ _ _ _ opt =>
        if (cellGet st.store cell).length < st.optionArgsMin then
          .error (.tooFewOptionArguments st.optionArgsMin st.optionArgsMax)
        else parseOption st opt
      | .unknownOption _ _ _ lit valid =>
        if ltMax (cellGet st.store cell).length st.optionArgsMax then
          .ok { st with store := cellPush st.store cell lit }
        else .error (.unknownOption lit valid)
      | .argSeparator _ _ _ _ =>
        if (cellGet st.store cell).length < st.optionArgsMin then
          .error (.tooFewOptionArguments st.optionArgsMin st.optionArgsMax)
        else parseArgSeparator st
      | .subcommand _ _ _ _ _ => .error (.parseError .unexpectedToken)
  | .parseOptionArgRequireSeparator =>
    match st.optionArgsCell with
    | none => .error (.parseError .invalidStateNoArray)
    | some cell =>
      if !st.requiredSeparator.truthy then
        .error (.parseError .invalidStateNoSeparator)
      else
        match token with
        | .optionArg _ _ _ lit _ sep =>
          match st.requiredSeparator with
          | .sep required =>
            if sep ≠ required then
              .error (.parseError (.incorrectSeparator required sep))
            else
              .ok { st with
                    store := cellPush st.store cell lit,
                    state := .parseArgs }
          | _ =>
            .ok { st with
                  store := cellPush st.store cell lit,
                  state := .parseArgs }
        | .arg _ _ _ lit =>
          if st.optionArgsMin > 0 then
            .error (.tooFewOptionArguments st.optionArgsMin st.optionArgsMax)
          else
            let st := { st with optionArgsCell := none, state := .parseArgs }
            parseArg st lit
        | .option _ _ _ _ opt =>
          if st.optionArgsMin > 0 then
            .error (.tooFewOptionArguments st.optionArgsMin st.optionArgsMax)
          else parseOption st opt
        | .unknownOption _ _ _ lit valid => .error (.unknownOption lit valid)
        | .argSeparator _ _ _ _ => .error (.parseError .unexpectedToken)
        | .subcommand _ _ _ _ cmd =>
          if st.optionArgsMin > 0 then
            .error (.tooFewOptionArguments st.optionArgsMin st.optionArgsMax)
          else
            .ok { (parseCommand st cmd) with state := .parseArgs }

/-- The token-consumption loop of `parse`. -/
def parseLoop (st : ParseSt) : List Token → Except ParseErr ParseSt
  | [] => .ok st
  | t :: rest =>
    match stepToken st t with
    | .error e => .error e
    | .ok st' => parseLoop st' rest

/-- The `dependsOnOptions` validation loop (src/parse.ts lines
401-410): the first missing dependency of the first violating option
raises. -/
def checkDepends (cells : List (Str × Nat)) :
    List Flag → Except ParseErr Unit
  | [] => .ok ()
  | option :: rest =>
    match (option.dependsOn.getD []).find? (fun n => !mhas cells n) with
    | some name =>
      .error (.parseError (.dependsOnMissing (option.name.headD []) name))
    | none => checkDepends cells rest

/-- The `exclusiveOnOptions` validation loop (src/parse.ts lines
411-420). -/
def checkExclusive (cells : List (Str × Nat)) :
    List Flag → Except ParseErr Unit
  | [] => .ok ()
  | option :: rest =>
    match (option.exclusiveOn.getD []).find? (fun n => mhas cells n) with
    | some name =>
      .error (.parseError (.exclusiveOnPresent (option.name.headD []) name))
    | none => checkExclusive cells rest

/-- The required-option validation loops (src/parse.ts lines 421-430),
iterating a required-option map in insertion order. -/
def checkRequired (cells : List (Str × Nat)) :
    List (Str × Flag) → Except ParseErr Unit
  | [] => .ok ()
  | (name, _) :: rest =>
    if !mhas cells name then .error (.missingRequiredOption name)
    else checkRequired cells rest

/-- `ParseResult` from src/parse.ts; the options map is materialized by
resolving each name's cell. -/
structure ParseResult where
  args : List Str
  argSeparatorIndex : Int
  options : List (Str × List Str)
  path : List Command
  actions : List ActionTag
  optionActions : List ActionTag

/-- The final validation and result assembly of `parse` (src/parse.ts
lines 392-439). -/
def validate (final : FinalState) (st : ParseSt) :
    Except ParseErr ParseResult :=
  if st.optionActions.length = 0 && st.foundArgs.length < st.commandArgsMin then
    .error (.tooFewArguments st.commandArgsMin st.commandArgsMax)
  else if (match st.optionArgsCell with
      | some cell => decide ((cellGet st.store cell).length < st.optionArgsMin)
      | none => false) then
    .error (.tooFewOptionArguments st.optionArgsMin st.optionArgsMax)
  else
    match checkDepends st.foundOptionCells st.dependsOnOptions with
    | .error e => .error e
    | .ok () =>
      match checkExclusive st.foundOptionCells st.exclusiveOnOptions with
      | .error e => .error e
      | .ok () =>
        match checkRequired st.foundOptionCells final.localRequiredOptions with
        | .error e => .error e
        | .ok () =>
          match checkRequired st.foundOptionCells
              final.persistentRequiredOptions with
          | .error e => .error e
          | .ok () =>
            .ok { path := st.path,
                  actions := st.actions,
                  optionActions := st.optionActions,
                  argSeparatorIndex := st.argSeparatorIndex,
                  args := st.foundArgs,
                  options := st.foundOptionCells.map
                    (fun p => (p.1, cellGet st.store p.2)) }

/-- The initial machine state of `parse` (src/parse.ts lines 92-126). -/
def initParseSt (spec : Command) : ParseSt where
  path := [spec]
  actions :=
    if spec.hasAction then [.ofCommand]
    else if spec.requiresSubcommand then [.usage]
    else []
  optionActions := []
  commandArgsMin := getMinArgs (spec.args.getD [])
  commandArgsMax := getMaxArgs (spec.args.getD [])
  foundArgs := []
  foundOptionCells := []
  store := []
  state := .parseArgs
  optionArgsCell := none
  optionArgsMin := 0
  optionArgsMax := some 0
  requiredSeparator := .unset
  argSeparatorIndex := -1
  dependsOnOptions := []
  exclusiveOnOptions := []

/-- `parse` from src/parse.ts: analyze the input, run the state machine
over the token stream, then validate and assemble the result. -/
def parse (input : List Str) (spec : Command) : Except ParseErr ParseResult :=
  let res := analyze input spec
  match parseLoop (initParseSt spec) res.2 with
  | .error e => .error e
  | .ok st => validate res.1 st

/-!
Concrete specs, flags and states used by the cross-checks and by the
claim theorems below.
-/

def sc_empty : Command := .mk [str "test"] none [] none none false false

def sc_optFlag : Flag := { name := [str "--option"] }
def sc_known : Command := .mk [str "test"] none [sc_optFlag] none none false false

def sc_nonposix : Command := .mk [str "test"] none []
  none (some { flagsArePosixNoncompliant := some true }) false false

def sc_dash : Flag := { name := [str "-"], args := some [{}] }
def sc_plus : Flag := { name := [str "+"], args := some [{}] }
def sc_x : Flag := { name := [str "-x"] }
def sc_y : Flag := { name := [str "-y"] }
def sc_anon : Command := .mk [str "test"] none [sc_dash, sc_plus, sc_x, sc_y]
  none none false false

def sc_cmdA : Command := .mk [str "long-name", str "name"] none [] none none false false
def sc_cmdB : Command := .mk [str "long-time"] none [] none none false false
def sc_cmdC : Command := .mk [str "abc-def", str "abc-xyz"] none [] none none false false
def sc_cmdD : Command := .mk [str "abc"] none [] none none false false
def sc_uniq : Command := .mk [str "test"] none []
  (some [sc_cmdA, sc_cmdB, sc_cmdC, sc_cmdD])
  (some { subcommandsMatchUniquePfx := true }) false false

def sc_perOpt : Flag := { name := [str "--option"], isPersistent := true }
def sc_sub : Command := .mk [str "cmd"] none [] none none false false
def sc_per : Command := .mk [str "test"] none [sc_perOpt]
  (some [sc_sub]) none false false

def sc_mustPre : Command := .mk [str "test"] none [sc_perOpt]
  (some [sc_sub]) (some { optionsMustPrecedeArguments := true }) false false

-- spec scenario 1
def sc_unstable : Flag := { name := [str "--unstable"], isRequired := true }
def sc_bench : Command := .mk [str "bench"] none [sc_unstable] none none false false
def sc_s1 : Command := .mk [str "deno"] none [] (some [sc_bench]) none false false

-- spec scenario 2
def sc_a2 : Flag := { name := [str "-a"], exclusiveOn := some [str "-b"] }
def sc_b2 : Flag := { name := [str "-b"] }
def sc_s2 : Command := .mk [str "test"] none [sc_a2, sc_b2] none none false false

-- spec scenario 3
def sc_a3 : Flag := { name := [str "-a"], dependsOn := some [str "-b"] }
def sc_s3 : Command := .mk [str "test"] none [sc_a3, sc_b2] none none false false

-- spec scenario 5 (claim C6)
def sc_sepFlag : Flag :=
  { name := [str "--sep"], args := some [{ isOptional := true }],
    requiresSeparator := .yes }
def sc_s5 : Command := .mk [str "test"] (some [{ isOptional := true }])
  [sc_sepFlag] none none false false

-- C1 counterexample
def sc_aFlag : Flag := { name := [str "--a"] }
def sc_c1 : Command := .mk [str "test"] none [sc_aFlag] none
  (some { optionArgSeparators := some [str "=", str ":"] }) false false

-- C2 failing input
def sc_cA : Command := .mk [str "ab-x", str "ab"] none [] none none false false
def sc_cB : Command := .mk [str "ab-y"] none [] none none false false
def sc_c2 : Command := .mk [str "test"] none [] (some [sc_cA, sc_cB])
  (some { subcommandsMatchUniquePfx := true }) false false

-- C3 failing input
def sc_subS : Command := .mk [str "sub"] none [] none none false false
def sc_c3 : Command := .mk [str "test"] none [sc_dash] (some [sc_subS]) none false false

-- C4 counterexample
def sc_help : Flag := { name := [str "--help"], hasAction := true }
def sc_c4 : Command := .mk [str "test"] none [sc_help] none none false false

-- C5

-- C7 counterexamples
def sc_opt1 : Flag := { name := [str "--opt"], args := some [{}] }
def sc_aShort : Flag := { name := [str "-a"] }
def sc_c7a : Command := .mk [str "test"] none [sc_opt1, sc_aShort] none none false false

def sc_opt0 : Flag := { name := [str "--opt"] }
def sc_c7b : Command := .mk [str "test"] (some [{ isOptional := true }])
  [sc_opt0] none none false false

-- C8
def sc_rep2 : Flag := { name := [str "-r"], isRepeatable := .upTo 2 }
def sc_c8 : Command := .mk [str "test"] none [sc_rep2] none none false false

-- C9
def sc_req : Flag := { name := [str "--req"], isRequired := true }
def sc_c9 : Command := .mk [str "root"] none [sc_req] (some [sc_subS]) none false false

def sc_subReq : Flag := { name := [str "--req"] }
def sc_subRedecl : Command := .mk [str "sub"] none [sc_subReq] none none false false
def sc_c9x : Command := .mk [str "root"] none [sc_req] (some [sc_subRedecl]) none false false

/-- Amended C1 characterization: the separator actually used is the
last separator in declaration order that occurs anywhere in the token,
paired with that separator's own first occurrence position. -/
def lastSeparatorMatch (token : Str) : List Str → Option (Str × Nat)
  | [] => none
  | sep :: rest =>
    match lastSeparatorMatch token rest with
    | some p => some p
    | none =>
      match strIndexOf token sep with
      | some i => some (sep, i)
      | none => none

/-- A token shape that enters one of the two option branches of the
analyzer when POSIX-compliant and not equal to `--`: longer than one
character and starting with `-` or `+`. -/
def optionShaped (t : Str) : Bool :=
  decide (t.length > 1) &&
    ((['-'] : Str).isPrefixOf t || (['+'] : Str).isPrefixOf t)

/-- The round-trip option of amended C7: one required argument, no
`requiresSeparator`. -/
def rtFlag : Flag := { name := [str "--opt"], args := some [{}] }

/-- The round-trip spec of amended C7. -/
def rtSpec : Command := .mk [str "test"] none [rtFlag] none none false false

/-- The analyzer state after the `--opt` option token of `rtSpec` has
been consumed. -/
def rtState1 : AnalyzeState :=
  { initAnalyzeState rtSpec with hasUsedNonPersistentOption := true }

/-- The common parse result of both binding forms in amended C7. -/
def rtResult (v : Str) : ParseResult where
  args := []
  argSeparatorIndex := -1
  options := [(str "--opt", [v])]
  path := [rtSpec]
  actions := []
  optionActions := []

/-- The finitely repeatable option of C8. -/
def repFlag (n : Nat) : Flag := { name := [str "-r"], isRepeatable := .upTo n }

/-- The C8 spec: one option repeatable at most `n` times. -/
def repSpec (n : Nat) : Command :=
  .mk [str "test"] none [repFlag n] none none false false

/-- The C8 parse result: `n` empty-string placeholders. -/
def repResult (n : Nat) : ParseResult where
  args := []
  argSeparatorIndex := -1
  options := [(str "-r", List.replicate n [])]
  path := [repSpec n]
  actions := []
  optionActions := []

/-- A machine state in separator-required collection mode with minimum
arity zero, used to witness the C6 step behavior. -/
def c6WitnessSt : ParseSt where
  path := [sc_s5]
  actions := []
  optionActions := []
  commandArgsMin := 0
  commandArgsMax := some 1
  foundArgs := []
  foundOptionCells := [(str "--sep", 0)]
  store := [[]]
  state := .parseOptionArgRequireSeparator
  optionArgsCell := some 0
  optionArgsMin := 0
  optionArgsMax := some 1
  requiredSeparator := .yes
  argSeparatorIndex := -1
  dependsOnOptions := []
  exclusiveOnOptions := []

/-- The analyzer scope after the subcommand `sub` of `sc_c9` has been
consumed: the local options are cleared, yet the local required map
still holds the root's `--req`. -/
def c9StSub : AnalyzeState :=
  (analyzeStep (initAnalyzeState sc_c9) 0 (str "sub")).1

/-- The machine state after the subcommand token of `sc_c9`. -/
def c9Pst1 : ParseSt := parseCommand (initParseSt sc_c9) sc_subS

/-- The option token the analyzer emits for each `-r` occurrence. -/
def repToken (n i : Nat) : Token := Token.option i 1 2 (str "-r") (repFlag n)

/-- The token stream for `j` repetitions of `-r` starting at input
index `i`. -/
def repTokens (n : Nat) : Nat → Nat → List Token
  | 0, _ => []
  | j + 1, i => repToken n i :: repTokens n j (i + 1)

/-- The analyzer scope of `repSpec` once the first `-r` has been
consumed. -/
def repStAfter (n : Nat) : AnalyzeState :=
  { initAnalyzeState (repSpec n) with hasUsedNonPersistentOption := true }

/-- The machine state of `repSpec` after `k` repetitions of `-r` have
been recorded. -/
def repPSt (n k : Nat) : ParseSt :=
  { initParseSt (repSpec n) with
    foundOptionCells := [(str "-r", 0)],
    store := [List.replicate k []] }

/-!
Cross-checks: the analyzer reproduces the expectations of the
repository's own test suite, and the state machine reproduces the
specification's concrete scenarios.
-/

example : (analyze [str "one", str "--", str "two"] sc_empty).2 =
    [.arg 0 0 3 (str "one"), .argSeparator 1 0 2 (str "--"),
     .arg 2 0 3 (str "two")] := rfl

example : (analyze [str "--option"] sc_known).2 =
    [.option 0 0 8 (str "--option") sc_optFlag] := rfl

example : (analyze [str "--option=abc"] sc_known).2 =
    [.option 0 0 8 (str "--option") sc_optFlag,
     .optionArg 0 9 12 (str "abc") (str "--option") (str "=")] := rfl

example : (analyze [str "--option"] sc_empty).2 =
    [.unknownOption 0 0 8 (str "--option") []] := rfl

example : (analyze [str "--option=abc"] sc_empty).2 =
    [.unknownOption 0 0 8 (str "--option") [],
     .optionArg 0 9 12 (str "abc") (str "--option") (str "=")] := rfl

example : (analyze [str "arg", str "--option"] sc_nonposix).2 =
    [.arg 0 0 3 (str "arg"), .arg 1 0 8 (str "--option")] := rfl

example : (analyze [str "-123", str "+abc", str "-xy"] sc_anon).2 =
    [.option 0 0 1 (str "-") sc_dash,
     .optionArg 0 1 4 (str "123") (str "-") (str ""),
     .option 1 0 1 (str "+") sc_plus,
     .optionArg 1 1 4 (str "abc") (str "+") (str ""),
     .option 2 1 2 (str "-x") sc_x,
     .option 2 2 3 (str "-y") sc_y] := rfl

example : (analyze [str "long-name"] sc_uniq).2 =
    [.subcommand 0 0 9 (str "long-name") sc_cmdA] := rfl

example : (analyze [str "abc"] sc_uniq).2 =
    [.subcommand 0 0 3 (str "abc") sc_cmdD] := rfl

example : (analyze [str "abc-"] sc_uniq).2 =
    [.subcommand 0 0 4 (str "abc-") sc_cmdC] := rfl

example : (analyze [str "long-"] sc_uniq).2 =
    [.arg 0 0 5 (str "long-")] := rfl

example : (analyze [str "long-n"] sc_uniq).2 =
    [.subcommand 0 0 6 (str "long-n") sc_cmdA] := rfl

example : (analyze [str "n"] sc_uniq).2 =
    [.subcommand 0 0 1 (str "n") sc_cmdA] := rfl

example : (analyze [str "cmd", str "--option"] sc_per).2 =
    [.subcommand 0 0 3 (str "cmd") sc_sub,
     .option 1 0 8 (str "--option") sc_perOpt] := rfl

example : (analyze [str "cmd", str "--option", str "arg", str "--option"] sc_mustPre).2 =
    [.subcommand 0 0 3 (str "cmd") sc_sub,
     .option 1 0 8 (str "--option") sc_perOpt,
     .arg 2 0 3 (str "arg"),
     .arg 3 0 8 (str "--option")] := rfl

example : parse [str "bench"] sc_s1 =
    .error (.missingRequiredOption (str "--unstable")) := rfl

example : parse [str "bench", str "--unstable"] sc_s1 =
    .ok { args := [], argSeparatorIndex := -1,
          options := [(str "--unstable", [])],
          path := [sc_s1, sc_bench], actions := [], optionActions := [] } := rfl

example : (parse [str "-a"] sc_s2).isOk = true := rfl

example : (parse [str "-b"] sc_s2).isOk = true := rfl

example : parse [str "-a", str "-b"] sc_s2 =
    .error (.parseError (.exclusiveOnPresent (str "-a") (str "-b"))) := rfl

example : parse [str "-ab"] sc_s2 =
    .error (.parseError (.exclusiveOnPresent (str "-a") (str "-b"))) := rfl

example : parse [str "-a"] sc_s3 =
    .error (.parseError (.dependsOnMissing (str "-a") (str "-b"))) := rfl

example : (parse [str "-ab"] sc_s3).isOk = true := rfl

example : (parse [str "-b", str "-a"] sc_s3).isOk = true := rfl

example : parse [str "--sep=val", str "val"] sc_s5 =
    .ok { args := [str "val"], argSeparatorIndex := -1,
          options := [(str "--sep", [str "val"])],
          path := [sc_s5], actions := [], optionActions := [] } := rfl

example : parse [str "--sep", str "val"] sc_s5 =
    .ok { args := [str "val"], argSeparatorIndex := -1,
          options := [(str "--sep", [])],
          path := [sc_s5], actions := [], optionActions := [] } := rfl

example : (analyze [str "--a=b:c"] sc_c1).2 =
    [.unknownOption 0 0 5 (str "--a=b") [str "--a"],
     .optionArg 0 6 7 (str "c") (str "--a=b") (str ":")] := rfl

example : (analyze [str "ab"] sc_c2).2 = [.arg 0 0 2 (str "ab")] := rfl

example : (analyze [str "-x", str "sub"] sc_c3).2 =
    [.option 0 0 1 (str "-") sc_dash,
     .optionArg 0 1 2 (str "x") (str "-") (str ""),
     .subcommand 1 0 3 (str "sub") sc_subS] := rfl

example : parse [str "--help", str "x"] sc_c4 =
    .error (.tooManyArguments (str "x")) := rfl

example : parse [] sc_empty =
    .ok { args := [], argSeparatorIndex := -1, options := [],
          path := [sc_empty], actions := [], optionActions := [] } := rfl

example : parse [str "-a"] sc_empty = .error (.unknownOption (str "-a") []) := rfl

example : parse [str "x"] sc_empty = .error (.tooManyArguments (str "x")) := rfl

example : parse [str "--"] sc_empty =
    .error (.parseError .unexpectedArgSeparator) := rfl

example : parse [str "--opt=-a"] sc_c7a =
    .ok { args := [], argSeparatorIndex := -1,
          options := [(str "--opt", [str "-a"])],
          path := [sc_c7a], actions := [], optionActions := [] } := rfl

example : parse [str "--opt", str "-a"] sc_c7a =
    .error (.tooFewOptionArguments 1 (some 1)) := rfl

example : parse [str "--opt=v"] sc_c7b =
    .error (.invalidOptionArg (str "v") (str "--opt")) := rfl

example : parse [str "--opt", str "v"] sc_c7b =
    .ok { args := [str "v"], argSeparatorIndex := -1,
          options := [(str "--opt", [])],
          path := [sc_c7b], actions := [], optionActions := [] } := rfl

example : parse [str "-r", str "-r"] sc_c8 =
    .ok { args := [], argSeparatorIndex := -1,
          options := [(str "-r", [str "", str ""])],
          path := [sc_c8], actions := [], optionActions := [] } := rfl

example : parse [str "-r", str "-r", str "-r"] sc_c8 =
    .error (.parseError .tooManyRepetitions) := rfl

example : parse [str "sub"] sc_c9 =
    .error (.missingRequiredOption (str "--req")) := rfl

example : parse [str "sub", str "--req"] sc_c9x =
    .ok { args := [], argSeparatorIndex := -1,
          options := [(str "--req", [])],
          path := [sc_c9x, sc_subRedecl], actions := [], optionActions := [] } := rfl

theorem lastSeparatorMatch_foldl (tok : Str) (seps : List Str)
    (acc : Option (Str × Nat)) :
    seps.foldl
      (fun acc sep =>
        match strIndexOf tok sep with
        | none => acc
        | some i => some (sep, i)) acc =
      match lastSeparatorMatch tok seps with
      | some p => some p
      | none => acc := by
  induction seps generalizing acc with
  | nil => rfl
  | cons s rest ih =>
    rw [List.foldl_cons, ih]
    cases hm : lastSeparatorMatch tok rest with
    | some p => simp [lastSeparatorMatch, hm]
    | none =>
      cases hf : strIndexOf tok s with
      | some i => simp [lastSeparatorMatch, hm, hf]
      | none => simp [lastSeparatorMatch, hm, hf]

/-- C1 (amended): the analyzer's separator search returns the last
separator in declaration order that occurs anywhere in the token, and
the position it returns is that separator's own first occurrence in the
token; the earliest-occurring position plays no role. -/
theorem c1_last_declared_separator_wins (seps : List Str) (tok : Str) :
    findSeparator seps tok = lastSeparatorMatch tok seps ∧
    ∀ sep i, findSeparator seps tok = some (sep, i) →
      strIndexOf tok sep = some i ∧ sep ∈ seps := by
  have hmain : findSeparator seps tok = lastSeparatorMatch tok seps := by
    rw [findSeparator, lastSeparatorMatch_foldl]
    cases lastSeparatorMatch tok seps <;> rfl
  refine ⟨hmain, ?_⟩
  intro sep i hfound
  rw [hmain] at hfound
  clear hmain
  induction seps with
  | nil => simp [lastSeparatorMatch] at hfound
  | cons s rest ih =>
    simp only [lastSeparatorMatch] at hfound
    cases hm : lastSeparatorMatch tok rest with
    | some p =>
      rw [hm] at hfound
      have hp : p = (sep, i) := by simpa using hfound
      rw [hp] at hm
      exact ⟨(ih hm).1, List.mem_cons_of_mem _ (ih hm).2⟩
    | none =>
      rw [hm] at hfound
      cases hf : strIndexOf tok s with
      | some k =>
        rw [hf] at hfound
        have hp : (s, k) = (sep, i) := by simpa using hfound
        cases hp
        exact ⟨hf, List.mem_cons_self _ _⟩
      | none =>
        rw [hf] at hfound
        simp at hfound

/-- C1 (counterexample): with configured separators `["=", ":"]` and
the token `--a=b:c`, the separator `=` occurs earliest (index 3), yet
the analyzer splits at `:` (index 5): the declared option `--a` is not
matched, and the emitted option name is `--a=b`. -/
theorem c1_counterexample :
    findSeparator [str "=", str ":"] (str "--a=b:c") = some (str ":", 5) ∧
    strIndexOf (str "--a=b:c") (str "=") = some 3 ∧
    (analyze [str "--a=b:c"] sc_c1).2 =
      [.unknownOption 0 0 5 (str "--a=b") [str "--a"],
       .optionArg 0 6 7 (str "c") (str "--a=b") (str ":")] :=
  ⟨rfl, rfl, rfl⟩

/-- C2 (code bug): the token `ab` is exactly an alias of the in-scope
subcommand `sc_cA = ["ab-x", "ab"]`, but under
`subcommandsMatchUniquePrefix` the analyzer emits it as a plain
positional argument instead of matching `sc_cA`: the earlier alias
`ab-x` registers a prefix hit and skips the exact check of the later
alias `ab`, and the second prefix match from `ab-y` then makes the
prefix set ambiguous. -/
theorem c2_exact_alias_match_lost :
    (str "ab") ∈ sc_cA.name ∧
    sc_c2.subcommands = some [sc_cA, sc_cB] ∧
    (analyze [str "ab"] sc_c2).2 = [.arg 0 0 2 (str "ab")] :=
  ⟨by decide, rfl, rfl⟩

/-- C3 (code bug): matching the non-persistent option `-` with an
attached inline argument (`-x`) does not set
`hasUsedNonPersistentOption`, so the analyzer still emits the later
token `sub` as a subcommand token. -/
theorem c3_dash_option_does_not_lock_subcommands :
    sc_dash.isPersistent = false ∧
    (analyze [str "-x", str "sub"] sc_c3).2 =
      [.option 0 0 1 (str "-") sc_dash,
       .optionArg 0 1 2 (str "x") (str "-") (str ""),
       .subcommand 1 0 3 (str "sub") sc_subS] :=
  ⟨rfl, rfl⟩

/-- C4 (counterexample): the option `--help` carries an action and is
parsed first, yet the following excess positional `x` still raises a
too-many-arguments error: the maximum bound checked during token
consumption is not bypassed by option actions. -/
theorem c4_counterexample :
    sc_help.hasAction = true ∧
    parse [str "--help", str "x"] sc_c4 =
      .error (.tooManyArguments (str "x")) :=
  ⟨rfl, rfl⟩

/-- C5 (counterexample): for a spec with no options, no subcommands and
no argument definitions, the non-empty inputs `["-a"]` and `["--"]` do
not raise too-many-arguments errors: the former is an unknown-option
error and the latter a generic parse error. -/
theorem c5_counterexample :
    parse [str "-a"] sc_empty = .error (.unknownOption (str "-a") []) ∧
    parse [str "--"] sc_empty = .error (.parseError .unexpectedArgSeparator) :=
  ⟨rfl, rfl⟩

/-- C7 (counterexample): the two binding forms are not equivalent for
every option and value.  With `--opt` taking one required argument and
`-a` a known option, `--opt=-a` binds `["-a"]` while `--opt -a` fails
(the bare `-a` is recognized as an option).  With `--opt` taking no
arguments, `--opt=v` fails while `--opt v` succeeds binding `[]`. -/
theorem c7_counterexample :
    parse [str "--opt=-a"] sc_c7a =
      .ok { args := [], argSeparatorIndex := -1,
            options := [(str "--opt", [str "-a"])],
            path := [sc_c7a], actions := [], optionActions := [] } ∧
    parse [str "--opt", str "-a"] sc_c7a =
      .error (.tooFewOptionArguments 1 (some 1)) ∧
    parse [str "--opt=v"] sc_c7b =
      .error (.invalidOptionArg (str "v") (str "--opt")) ∧
    parse [str "--opt", str "v"] sc_c7b =
      .ok { args := [str "v"], argSeparatorIndex := -1,
            options := [(str "--opt", [])],
            path := [sc_c7b], actions := [], optionActions := [] } :=
  ⟨rfl, rfl, rfl, rfl⟩

/-- C9 (counterexample): the root requires the non-persistent `--req`,
the input selects the subcommand `sub`, yet the parse succeeds, because
`sub` redeclares an option named `--req` whose binding satisfies the
never-cleared required map. -/
theorem c9_counterexample :
    sc_req.isRequired = true ∧ sc_req.isPersistent = false ∧
    parse [str "sub", str "--req"] sc_c9x =
      .ok { args := [], argSeparatorIndex := -1,
            options := [(str "--req", [])],
            path := [sc_c9x, sc_subRedecl], actions := [],
            optionActions := [] } :=
  ⟨rfl, rfl, rfl⟩

/-- C10: option-name resolution consults the local map first: a local
hit is returned unchanged, and the persistent map only decides the
result when the local map misses. -/
theorem c10_local_option_wins (st : AnalyzeState) (name : Str) :
    (∀ opt, mget st.localOptions name = some opt →
      getOption st name = some opt) ∧
    (mget st.localOptions name = none →
      getOption st name = mget st.persistentOptions name) := by
  constructor
  · intro opt h
    rw [getOption, h]
  · intro h
    rw [getOption, h]

/-- An analyzer scope where the same name is registered both locally
and persistently, with different options. -/
def c10St : AnalyzeState :=
  { baseAnalyzeState with
    localOptions := [(str "-x", sc_x)],
    persistentOptions := [(str "-x", sc_y)] }

theorem c10_local_option_wins_witness :
    getOption c10St (str "-x") = some sc_x :=
  (c10_local_option_wins c10St (str "-x")).1 sc_x rfl

theorem c1_last_declared_separator_wins_witness :
    strIndexOf (str "--a=b:c") (str ":") = some 5 ∧
      (str ":") ∈ [str "=", str ":"] :=
  (c1_last_declared_separator_wins [str "=", str ":"] (str "--a=b:c")).2
    (str ":") 5 rfl

/-- C6: in separator-required collection mode, a bare positional,
option, or subcommand token finalizes the open option with zero bound
arguments when its minimum arity is zero — the token is then handled
exactly as in the default state — and raises too-few-option-arguments
otherwise.  Concretely, for `--sep` with one optional argument and
`requiresSeparator`, `["--sep", "val"]` binds `--sep` to `[]` and `val`
as a positional, while `["--sep=val", "val"]` binds both. -/
theorem c6_separator_required_finalizes_on_bare_token :
    (parse [str "--sep", str "val"] sc_s5 =
      .ok { args := [str "val"], argSeparatorIndex := -1,
            options := [(str "--sep", [])],
            path := [sc_s5], actions := [], optionActions := [] }) ∧
    (parse [str "--sep=val", str "val"] sc_s5 =
      .ok { args := [str "val"], argSeparatorIndex := -1,
            options := [(str "--sep", [str "val"])],
            path := [sc_s5], actions := [], optionActions := [] }) ∧
    ∀ (st : ParseSt) (cell : Nat),
      st.state = .parseOptionArgRequireSeparator →
      st.optionArgsCell = some cell →
      st.requiredSeparator.truthy = true →
      (∀ i a b lit, st.optionArgsMin = 0 →
        stepToken st (.arg i a b lit) =
          parseArg { st with optionArgsCell := none, state := .parseArgs }
            lit) ∧
      (∀ i a b lit, 0 < st.optionArgsMin →
        stepToken st (.arg i a b lit) =
          .error (.tooFewOptionArguments st.optionArgsMin st.optionArgsMax)) ∧
      (∀ i a b lit opt, st.optionArgsMin = 0 →
        stepToken st (.option i a b lit opt) = parseOption st opt) ∧
      (∀ i a b lit opt, 0 < st.optionArgsMin →
        stepToken st (.option i a b lit opt) =
          .error (.tooFewOptionArguments st.optionArgsMin st.optionArgsMax)) ∧
      (∀ i a b lit cmd, st.optionArgsMin = 0 →
        stepToken st (.subcommand i a b lit cmd) =
          .ok { (parseCommand st cmd) with state := .parseArgs }) ∧
      (∀ i a b lit cmd, 0 < st.optionArgsMin →
        stepToken st (.subcommand i a b lit cmd) =
          .error (.tooFewOptionArguments st.optionArgsMin st.optionArgsMax)) := by
  refine ⟨rfl, rfl, ?_⟩
  intro st cell hstate hcell hsep
  refine ⟨?_, ?_, ?_, ?_, ?_, ?_⟩ <;> intro i a b lit
  · intro hmin
    simp [stepToken, hstate, hcell, hsep, hmin]
  · intro hmin
    simp [stepToken, hstate, hcell, hsep, Nat.pos_iff_ne_zero.mp hmin]
  · intro opt hmin
    simp [stepToken, hstate, hcell, hsep, hmin]
  · intro opt hmin
    simp [stepToken, hstate, hcell, hsep, Nat.pos_iff_ne_zero.mp hmin]
  · intro cmd hmin
    simp [stepToken, hstate, hcell, hsep, hmin]
  · intro cmd hmin
    simp [stepToken, hstate, hcell, hsep, Nat.pos_iff_ne_zero.mp hmin]

theorem c6_separator_required_finalizes_on_bare_token_witness :
    stepToken c6WitnessSt (.arg 1 0 3 (str "val")) =
      parseArg
        { c6WitnessSt with optionArgsCell := none, state := .parseArgs }
        (str "val") :=
  ((c6_separator_required_finalizes_on_bare_token).2.2 c6WitnessSt 0
    rfl rfl rfl).1 1 0 3 (str "val") rfl

theorem getOption_empty {st : AnalyzeState} (h1 : st.localOptions = [])
    (h2 : st.persistentOptions = []) (name : Str) :
    getOption st name = none := by
  rw [getOption, h1, h2]; rfl

theorem validOptions_empty {st : AnalyzeState} (h1 : st.localOptions = [])
    (h2 : st.persistentOptions = []) : validOptions st = [] := by
  rw [validOptions, h1, h2]; rfl

theorem parseLoop_cons_error {st : ParseSt} {t : Token} {e : ParseErr}
    (h : stepToken st t = .error e) (l : List Token) :
    parseLoop st (t :: l) = .error e := by
  rw [parseLoop, h]

theorem stepToken_arg_overflow {st : ParseSt} (hstate : st.state = .parseArgs)
    (hmax : st.commandArgsMax = some 0)
    (hreq : (lastCommand st).requiresSubcommand = false)
    (i a b : Nat) (lit : Str) :
    stepToken st (.arg i a b lit) = .error (.tooManyArguments lit) := by
  simp [stepToken, hstate, parseArg, hreq, hmax, geMax]

theorem stepToken_argSeparator_overflow {st : ParseSt}
    (hstate : st.state = .parseArgs) (hmax : st.commandArgsMax = some 0)
    (i a b : Nat) (lit : Str) :
    stepToken st (.argSeparator i a b lit) =
      .error (.parseError .unexpectedArgSeparator) := by
  simp [stepToken, hstate, parseArgSeparator, hmax, geMax]

theorem stepToken_unknown_error {st : ParseSt} (hstate : st.state = .parseArgs)
    (i a b : Nat) (lit : Str) (valid : List Str) :
    stepToken st (.unknownOption i a b lit valid) =
      .error (.unknownOption lit valid) := by
  simp [stepToken, hstate]

theorem stepToken_optionArg_error {st : ParseSt}
    (hstate : st.state = .parseArgs) (i a b : Nat) (lit nm sep : Str) :
    stepToken st (.optionArg i a b lit nm sep) =
      .error (.invalidOptionArg lit nm) := by
  simp [stepToken, hstate]

theorem analyzeStep_bare_arg {st : AnalyzeState}
    (h3 : st.localSubcommands = none)
    (h4 : st.posixCompliantOptions = true)
    (i : Nat) {t : Str} (hshape : optionShaped t = false) :
    analyzeStep st i t =
      ({ st with hasFoundArg := true }, [Token.arg i 0 t.length t]) := by
  rcases t with _ | ⟨c1, _ | ⟨c2, ts⟩⟩
  · simp [analyzeStep, h3, h4]
  · simp [analyzeStep, h3, h4]
  · simp only [optionShaped, List.isPrefixOf, List.length_cons,
      Bool.and_eq_false_iff] at hshape
    rcases hshape with h | h
    · simp at h
    · simp only [beq_iff_eq, Bool.and_true, Bool.or_eq_false_iff,
        Bool.and_eq_false_iff] at h
      simp [analyzeStep, h3, h4, List.isPrefixOf, h.1, h.2]

theorem analyzeStep_bare_unknown_head {st : AnalyzeState}
    (h1 : st.localOptions = []) (h2 : st.persistentOptions = [])
    (h3 : st.localSubcommands = none)
    (h4 : st.posixCompliantOptions = true)
    (h5 : st.optionsMustPrecedeArguments = false)
    (i : Nat) {t : Str} (hne : t ≠ ['-', '-'])
    (hshape : optionShaped t = true) :
    ∃ a b nm toks, (analyzeStep st i t).2 =
      Token.unknownOption i a b nm [] :: toks := by
  have hget : ∀ name, getOption st name = none := getOption_empty h1 h2
  have hvalid : validOptions st = [] := validOptions_empty h1 h2
  rw [optionShaped, Bool.and_eq_true] at hshape
  obtain ⟨hlen, hpre⟩ := hshape
  cases hpre2 : (['-', '-'] : Str).isPrefixOf t with
  | true =>
    have hlen2 : decide (t.length > 2) = true := by
      have hp := List.isPrefixOf_iff_prefix.mp hpre2
      have hge : 2 ≤ t.length := by
        simpa using hp.length_le
      rcases Nat.lt_or_ge 2 t.length with hlt | hge2
      · simpa using hlt
      · exact absurd (List.IsPrefix.eq_of_length hp (by simp; omega)).symm hne
    cases hfs : findSeparator st.separators t with
    | some p =>
      refine ⟨0, p.2, t.take p.2,
        [Token.optionArg i (p.2 + p.1.length) t.length
          (t.drop (p.2 + p.1.length)) (t.take p.2) p.1], ?_⟩
      simp [analyzeStep, h3, h4, h5, hpre2, hlen2, hfs, hget, hvalid]
    | none =>
      refine ⟨0, t.length, t, [], ?_⟩
      simp [analyzeStep, h3, h4, h5, hpre2, hlen2, hfs, hget, hvalid]
  | false =>
    rcases t with _ | ⟨c1, _ | ⟨c2, ts⟩⟩
    · simp at hlen
    · simp at hlen
    · refine ⟨1, 2, (c1 :: c2 :: ts).take 1 ++ [c2],
        (chainLoop i (c1 :: c2 :: ts) ((c1 :: c2 :: ts).take 1) st ts 2).2,
        ?_⟩
      simp [analyzeStep, chainLoop, h3, h4, h5, hpre2, hlen, hpre, hget,
        hvalid]

theorem analyze_cons_tokens (spec : Command) (t : Str) (rest : List Str) :
    (analyze (t :: rest) spec).2 =
      (analyzeLoop (initAnalyzeState spec) (t :: rest) 0).2 := by
  simp [analyze]

theorem analyzeLoop_cons_ne {st : AnalyzeState} {t : Str}
    (rest : List Str) (i : Nat) (h : ¬t = ['-', '-']) :
    (analyzeLoop st (t :: rest) i).2 =
      (analyzeStep st i t).2 ++
        (analyzeLoop (analyzeStep st i t).1 rest (i + 1)).2 := by
  simp [analyzeLoop, h]

theorem analyzeLoop_cons_sep {st : AnalyzeState} (rest : List Str) (i : Nat) :
    (analyzeLoop st ((['-', '-'] : Str) :: rest) i).2 =
      Token.argSeparator i 0 2 ['-', '-'] :: argsFrom rest (i + 1) := by
  simp [analyzeLoop]

theorem parse_first_token_error {input : List Str} {spec : Command}
    {tok : Token} {tail : List Token} {e : ParseErr}
    (htoks : (analyze input spec).2 = tok :: tail)
    (hstep : stepToken (initParseSt spec) tok = .error e) :
    parse input spec = .error e := by
  unfold parse
  simp only [htoks, parseLoop_cons_error hstep]

/-- C5 (amended): for a spec with no options, no subcommands and no
argument definitions, parsing `[]` succeeds with empty positional and
option results, and parsing any non-empty input fails — with a
too-many-arguments error when the first token is neither the literal
`--` (generic parse error) nor option-shaped (unknown-option error). -/
theorem c5_empty_spec_rejects_nonempty_input :
    (parse [] sc_empty =
      .ok { args := [], argSeparatorIndex := -1, options := [],
            path := [sc_empty], actions := [], optionActions := [] }) ∧
    (∀ t rest, ∃ e, parse (t :: rest) sc_empty = .error e) ∧
    (∀ t rest, t ≠ str "--" → optionShaped t = false →
      parse (t :: rest) sc_empty = .error (.tooManyArguments t)) := by
  have harg : ∀ (t : Str) (rest : List Str), ¬t = ['-', '-'] →
      optionShaped t = false →
      parse (t :: rest) sc_empty = .error (.tooManyArguments t) := by
    intro t rest ht hshape
    have hstep := @analyzeStep_bare_arg (initAnalyzeState sc_empty)
      rfl rfl 0 t hshape
    refine @parse_first_token_error (t :: rest) sc_empty
      (Token.arg 0 0 t.length t)
      ((analyzeLoop (analyzeStep (initAnalyzeState sc_empty) 0 t).1 rest 1).2)
      _ ?_ ?_
    · rw [analyze_cons_tokens, analyzeLoop_cons_ne rest 0 ht, hstep]
      rfl
    · exact @stepToken_arg_overflow (initParseSt sc_empty) rfl rfl rfl
        0 0 t.length t
  refine ⟨rfl, ?_, fun t rest ht => harg t rest ht⟩
  intro t rest
  by_cases ht : t = ['-', '-']
  · subst ht
    refine ⟨.parseError .unexpectedArgSeparator,
      @parse_first_token_error _ _ (Token.argSeparator 0 0 2 ['-', '-'])
        (argsFrom rest 1) _ ?_ ?_⟩
    · rw [analyze_cons_tokens, analyzeLoop_cons_sep]
    · exact @stepToken_argSeparator_overflow (initParseSt sc_empty) rfl rfl 0 0 2 ['-', '-']
  · cases hshape : optionShaped t with
    | false => exact ⟨_, harg t rest ht hshape⟩
    | true =>
      obtain ⟨a, b, nm, toks, hhead⟩ := @analyzeStep_bare_unknown_head
        (initAnalyzeState sc_empty) rfl rfl rfl rfl rfl 0 t ht hshape
      refine ⟨.unknownOption nm [],
        @parse_first_token_error _ _ (Token.unknownOption 0 a b nm [])
          (toks ++
            (analyzeLoop (analyzeStep (initAnalyzeState sc_empty) 0 t).1
              rest 1).2) _ ?_ ?_⟩
      · rw [analyze_cons_tokens, analyzeLoop_cons_ne rest 0 ht, hhead]
        rfl
      · exact @stepToken_unknown_error (initParseSt sc_empty) rfl 0 a b nm []

theorem c5_empty_spec_rejects_nonempty_input_witness :
    parse [str "x"] sc_empty = .error (.tooManyArguments (str "x")) :=
  c5_empty_spec_rejects_nonempty_input.2.2 (str "x") [] (by decide)
    (by decide)

theorem parse_second_token_error {input : List Str} {spec : Command}
    {tok1 tok2 : Token} {tail : List Token} {st1 : ParseSt} {e : ParseErr}
    (htoks : (analyze input spec).2 = tok1 :: tok2 :: tail)
    (h1 : stepToken (initParseSt spec) tok1 = .ok st1)
    (h2 : stepToken st1 tok2 = .error e) :
    parse input spec = .error e := by
  unfold parse
  simp only [htoks, parseLoop, h1, h2]

/-- C9 (amended): with the root declaring the non-persistent required
option `--req` and a subcommand `sub` that does not re-declare that
name, a parse whose input selects `sub` can never succeed; when the
subcommand is the whole input the failure is MissingRequiredOption for
`--req` (the local required map survives the subcommand transition
although the option is no longer matchable), and any further token
fails with some parse error first. -/
theorem c9_required_option_lost_after_subcommand :
    (parse [str "sub"] sc_c9 =
      .error (.missingRequiredOption (str "--req"))) ∧
    (∀ t rest, ∃ e, parse (str "sub" :: t :: rest) sc_c9 = .error e) := by
  refine ⟨rfl, ?_⟩
  intro t rest
  have hsub : ¬(str "sub") = (['-', '-'] : Str) := by decide
  have hfirst : analyzeStep (initAnalyzeState sc_c9) 0 (str "sub") =
      (c9StSub, [Token.subcommand 0 0 3 (str "sub") sc_subS]) := rfl
  have hstep1 : stepToken (initParseSt sc_c9)
      (Token.subcommand 0 0 3 (str "sub") sc_subS) = .ok c9Pst1 := rfl
  by_cases ht : t = ['-', '-']
  · subst ht
    refine ⟨.parseError .unexpectedArgSeparator,
      @parse_second_token_error _ _ _ (Token.argSeparator 1 0 2 ['-', '-'])
        (argsFrom rest 2) c9Pst1 _ ?_ hstep1 ?_⟩
    · rw [analyze_cons_tokens, analyzeLoop_cons_ne _ 0 hsub, hfirst,
        analyzeLoop_cons_sep]
      rfl
    · exact @stepToken_argSeparator_overflow c9Pst1 rfl rfl 1 0 2 ['-', '-']
  · cases hshape : optionShaped t with
    | false =>
      have hstep := @analyzeStep_bare_arg c9StSub rfl rfl 1 t hshape
      refine ⟨.tooManyArguments t,
        @parse_second_token_error _ _ _ (Token.arg 1 0 t.length t)
          ((analyzeLoop (analyzeStep c9StSub 1 t).1 rest 2).2) c9Pst1 _
          ?_ hstep1 ?_⟩
      · rw [analyze_cons_tokens, analyzeLoop_cons_ne _ 0 hsub, hfirst,
          analyzeLoop_cons_ne rest 1 ht, hstep]
        rfl
      · exact @stepToken_arg_overflow c9Pst1 rfl rfl rfl 1 0 t.length t
    | true =>
      obtain ⟨a, b, nm, toks, hhead⟩ := @analyzeStep_bare_unknown_head
        c9StSub rfl rfl rfl rfl rfl 1 t ht hshape
      refine ⟨.unknownOption nm [],
        @parse_second_token_error _ _ _ (Token.unknownOption 1 a b nm [])
          (toks ++ (analyzeLoop (analyzeStep c9StSub 1 t).1 rest 2).2)
          c9Pst1 _ ?_ hstep1 ?_⟩
      · rw [analyze_cons_tokens, analyzeLoop_cons_ne _ 0 hsub, hfirst,
          analyzeLoop_cons_ne rest 1 ht, hhead]
        rfl
      · exact @stepToken_unknown_error c9Pst1 rfl 1 a b nm []

theorem parseOption_no_tfa (st : ParseSt) (option : Flag) (m : Nat)
    (mx : Option Nat) :
    parseOption st option ≠ .error (.tooFewArguments m mx) := by
  unfold parseOption
  intro h
  repeat' split at h
  all_goals
    try (cases hg : getName st.foundOptionCells option.name <;>
      simp only [hg] at h <;> split at h)
  all_goals simp_all

theorem parseArg_no_tfa (st : ParseSt) (lit : Str) (m : Nat)
    (mx : Option Nat) :
    parseArg st lit ≠ .error (.tooFewArguments m mx) := by
  unfold parseArg
  intro h
  repeat' split at h
  all_goals simp_all

theorem parseArgSeparator_no_tfa (st : ParseSt) (m : Nat) (mx : Option Nat) :
    parseArgSeparator st ≠ .error (.tooFewArguments m mx) := by
  unfold parseArgSeparator
  intro h
  repeat' split at h
  all_goals simp_all

theorem stepToken_no_tfa (st : ParseSt) (tok : Token) (m : Nat)
    (mx : Option Nat) :
    stepToken st tok ≠ .error (.tooFewArguments m mx) := by
  intro h
  cases hstate : st.state <;> cases tok <;>
    simp only [stepToken, hstate] at h <;>
    repeat' split at h
  all_goals
    first
    | exact parseArg_no_tfa _ _ _ _ h
    | exact parseOption_no_tfa _ _ _ _ h
    | exact parseArgSeparator_no_tfa _ _ _ h
    | simp_all

theorem parseLoop_no_tfa (toks : List Token) (st : ParseSt) (m : Nat)
    (mx : Option Nat) :
    parseLoop st toks ≠ .error (.tooFewArguments m mx) := by
  induction toks generalizing st with
  | nil => intro h; simp [parseLoop] at h
  | cons t rest ih =>
    intro h
    rw [parseLoop] at h
    cases hs : stepToken st t with
    | error e => rw [hs] at h; cases h; exact stepToken_no_tfa st t m mx hs
    | ok st' => rw [hs] at h; exact ih st' h

theorem checkDepends_no_tfa (cells : List (Str × Nat)) (l : List Flag)
    (m : Nat) (mx : Option Nat) :
    checkDepends cells l ≠ .error (.tooFewArguments m mx) := by
  induction l with
  | nil => intro h; simp [checkDepends] at h
  | cons o rest ih =>
    intro h
    rw [checkDepends] at h
    cases hf : (o.dependsOn.getD []).find? (fun n => !mhas cells n) with
    | some name => rw [hf] at h; simp at h
    | none => rw [hf] at h; exact ih h

theorem checkExclusive_no_tfa (cells : List (Str × Nat)) (l : List Flag)
    (m : Nat) (mx : Option Nat) :
    checkExclusive cells l ≠ .error (.tooFewArguments m mx) := by
  induction l with
  | nil => intro h; simp [checkExclusive] at h
  | cons o rest ih =>
    intro h
    rw [checkExclusive] at h
    cases hf : (o.exclusiveOn.getD []).find? (fun n => mhas cells n) with
    | some name => rw [hf] at h; simp at h
    | none => rw [hf] at h; exact ih h

theorem checkRequired_no_tfa (cells : List (Str × Nat))
    (l : List (Str × Flag)) (m : Nat) (mx : Option Nat) :
    checkRequired cells l ≠ .error (.tooFewArguments m mx) := by
  induction l with
  | nil => intro h; simp [checkRequired] at h
  | cons p rest ih =>
    intro h
    rw [checkRequired] at h
    split at h
    · simp at h
    · exact ih h

theorem validate_tfa_optionActions {fs : FinalState} {st : ParseSt}
    {m : Nat} {mx : Option Nat}
    (h : validate fs st = .error (.tooFewArguments m mx)) :
    st.optionActions = [] := by
  unfold validate at h
  split at h
  · next hcond =>
    rw [Bool.and_eq_true] at hcond
    exact List.length_eq_zero.mp (by simpa using hcond.1)
  · split at h
    · simp at h
    · cases hd : checkDepends st.foundOptionCells st.dependsOnOptions with
      | error e =>
        rw [hd] at h
        cases h
        exact absurd hd (checkDepends_no_tfa _ _ _ _)
      | ok u =>
        cases u
        rw [hd] at h
        cases he : checkExclusive st.foundOptionCells st.exclusiveOnOptions with
        | error e =>
          rw [he] at h
          cases h
          exact absurd he (checkExclusive_no_tfa _ _ _ _)
        | ok u =>
          cases u
          rw [he] at h
          cases hr : checkRequired st.foundOptionCells
              fs.localRequiredOptions with
          | error e =>
            rw [hr] at h
            cases h
            exact absurd hr (checkRequired_no_tfa _ _ _ _)
          | ok u =>
            cases u
            rw [hr] at h
            cases hp : checkRequired st.foundOptionCells
                fs.persistentRequiredOptions with
            | error e =>
              rw [hp] at h
              cases h
              exact absurd hp (checkRequired_no_tfa _ _ _ _)
            | ok u =>
              cases u
              rw [hp] at h
              cases h

/-- C4 (amended): a too-few-arguments failure can only come from the
final minimum-arity validation, and only when no option action fired:
whenever `parse` fails with TooFewArguments, the token loop completed
with an empty option-action list and final validation raised the error.
The maximum bound during token consumption is not bypassed by option
actions (see the counterexample). -/
theorem c4_too_few_arguments_implies_no_option_action
    (input : List Str) (spec : Command) (m : Nat) (mx : Option Nat)
    (h : parse input spec = .error (.tooFewArguments m mx)) :
    ∃ st, parseLoop (initParseSt spec) (analyze input spec).2 = .ok st ∧
      st.optionActions = [] ∧
      validate (analyze input spec).1 st =
        .error (.tooFewArguments m mx) := by
  replace h :
      (match parseLoop (initParseSt spec) (analyze input spec).2 with
        | .error e => (.error e : Except ParseErr ParseResult)
        | .ok st => validate (analyze input spec).1 st) =
        .error (.tooFewArguments m mx) := h
  cases hp : parseLoop (initParseSt spec) (analyze input spec).2 with
  | error e =>
    rw [hp] at h
    cases h
    exact absurd hp (parseLoop_no_tfa _ _ _ _)
  | ok st =>
    rw [hp] at h
    exact ⟨st, rfl, validate_tfa_optionActions h, h⟩

/-- A spec demanding one positional argument, used to witness C4. -/
def c4WitnessSpec : Command :=
  .mk [str "test"] (some [{}]) [] none none false false

theorem c4_too_few_arguments_implies_no_option_action_witness :
    ∃ st, parseLoop (initParseSt c4WitnessSpec)
        (analyze [] c4WitnessSpec).2 = .ok st ∧
      st.optionActions = [] ∧
      validate (analyze [] c4WitnessSpec).1 st =
        .error (.tooFewArguments 1 (some 1)) :=
  c4_too_few_arguments_implies_no_option_action [] c4WitnessSpec 1 (some 1)
    rfl

theorem rt_inline_analyzeStep (v : Str) :
    analyzeStep (initAnalyzeState rtSpec) 0
      ('-' :: '-' :: 'o' :: 'p' :: 't' :: '=' :: v) =
    (rtState1,
      [Token.option 0 0 5 (str "--opt") rtFlag,
       Token.optionArg 0 6 ('-' :: '-' :: 'o' :: 'p' :: 't' :: '=' :: v).length
         v (str "--opt") ['=']]) := by
  have hlen1 : decide
      ((('-' :: '-' :: 'o' :: 'p' :: 't' :: '=' :: v) : Str).length > 1) =
      true := by simp
  have hlen2 : decide
      ((('-' :: '-' :: 'o' :: 'p' :: 't' :: '=' :: v) : Str).length > 2) =
      true := by simp
  simp only [analyzeStep, hlen1, hlen2]
  simp [initAnalyzeState, updateCurrentCommand, baseAnalyzeState, rtSpec,
    mergeOptions, rtFlag, getOption, mget, setEach, mset, findSeparator,
    strIndexOf, strIndexOfAux, List.isPrefixOf, validOptions, hasOption,
    mhas, rtState1, str, Command.options, Command.parserDirectives,
    Command.subcommands, chainLoop]

theorem analyzeLoop_cons_ne_full {st : AnalyzeState} {t : Str}
    (rest : List Str) (i : Nat) (h : ¬t = ['-', '-']) :
    analyzeLoop st (t :: rest) i =
      ((analyzeLoop (analyzeStep st i t).1 rest (i + 1)).1,
        (analyzeStep st i t).2 ++
          (analyzeLoop (analyzeStep st i t).1 rest (i + 1)).2) := by
  simp [analyzeLoop, h]

theorem analyze_cons (spec : Command) (t : Str) (rest : List Str) :
    analyze (t :: rest) spec =
      ((analyzeLoop (initAnalyzeState spec) (t :: rest) 0).1.finalState,
        (analyzeLoop (initAnalyzeState spec) (t :: rest) 0).2) := by
  simp [analyze]

theorem rt_inline_tokens (v : Str) :
    analyze [str "--opt=" ++ v] rtSpec =
      (rtState1.finalState,
        [Token.option 0 0 5 (str "--opt") rtFlag,
         Token.optionArg 0 6
           ('-' :: '-' :: 'o' :: 'p' :: 't' :: '=' :: v).length
           v (str "--opt") ['=']]) := by
  have ht : str "--opt=" ++ v = '-' :: '-' :: 'o' :: 'p' :: 't' :: '=' :: v :=
    rfl
  rw [ht]
  have hne : ¬('-' :: '-' :: 'o' :: 'p' :: 't' :: '=' :: v) =
      (['-', '-'] : Str) := by simp
  rw [analyze_cons, analyzeLoop_cons_ne_full _ _ hne,
    rt_inline_analyzeStep]
  simp [analyzeLoop]

theorem rt_bare_tokens (v : Str) (hv : v ≠ str "--")
    (hclass : analyzeStep rtState1 1 v =
      ({ rtState1 with hasFoundArg := true }, [Token.arg 1 0 v.length v])) :
    analyze [str "--opt", v] rtSpec =
      (({ rtState1 with hasFoundArg := true }).finalState,
        [Token.option 0 0 5 (str "--opt") rtFlag,
         Token.arg 1 0 v.length v]) := by
  have hne : ¬v = (['-', '-'] : Str) := fun h => hv h
  have hstep1 : analyzeStep (initAnalyzeState rtSpec) 0 (str "--opt") =
      (rtState1, [Token.option 0 0 5 (str "--opt") rtFlag]) := rfl
  rw [analyze_cons,
    analyzeLoop_cons_ne_full _ _ (by decide : ¬(str "--opt") = ['-', '-']),
    hstep1, analyzeLoop_cons_ne_full _ _ hne, hclass]
  simp [analyzeLoop]

theorem parse_via {input : List Str} {spec : Command} {fs : FinalState}
    {toks : List Token} (h : analyze input spec = (fs, toks)) :
    parse input spec =
      (match parseLoop (initParseSt spec) toks with
        | .error e => .error e
        | .ok st => validate fs st) := by
  have hz : parse input spec =
      (match parseLoop (initParseSt spec) (analyze input spec).2 with
        | .error e => (.error e : Except ParseErr ParseResult)
        | .ok st => validate (analyze input spec).1 st) := rfl
  rw [hz, h]

/-- C7 (amended): for the option `--opt` taking one required argument
with `requiresSeparator` unset, and any value string `v` other than the
literal `--` whose standalone token the analyzer classifies as a plain
positional argument, parsing `--opt=v` and parsing `--opt v` produce
the same result, binding `--opt` to exactly `[v]`. -/
theorem c7_round_trip_equivalence (v : Str) (hv : v ≠ str "--")
    (hclass : analyzeStep rtState1 1 v =
      ({ rtState1 with hasFoundArg := true }, [Token.arg 1 0 v.length v])) :
    parse [str "--opt=" ++ v] rtSpec = .ok (rtResult v) ∧
    parse [str "--opt", v] rtSpec = .ok (rtResult v) := by
  constructor
  · rw [parse_via (rt_inline_tokens v)]
    rfl
  · rw [parse_via (rt_bare_tokens v hv hclass)]
    rfl

theorem c7_round_trip_equivalence_witness :
    parse [str "--opt=val"] rtSpec = .ok (rtResult (str "val")) ∧
    parse [str "--opt", str "val"] rtSpec = .ok (rtResult (str "val")) :=
  c7_round_trip_equivalence (str "val") (by decide) rfl

theorem rep_analyzeStep_first (n : Nat) :
    analyzeStep (initAnalyzeState (repSpec n)) 0 (str "-r") =
      (repStAfter n, [repToken n 0]) := rfl

theorem rep_analyzeStep_later (n i : Nat) :
    analyzeStep (repStAfter n) i (str "-r") =
      (repStAfter n, [repToken n i]) := rfl

theorem rep_analyzeLoop (n : Nat) (j i : Nat) :
    analyzeLoop (repStAfter n) (List.replicate j (str "-r")) i =
      (repStAfter n, repTokens n j i) := by
  induction j generalizing i with
  | zero => rfl
  | succ j ih =>
    rw [List.replicate_succ,
      analyzeLoop_cons_ne_full _ _ (by decide : ¬(str "-r") = ['-', '-']),
      rep_analyzeStep_later, ih]
    rfl

theorem rep_analyze (n m : Nat) (hm : 1 ≤ m) :
    analyze (List.replicate m (str "-r")) (repSpec n) =
      ((repStAfter n).finalState, repTokens n m 0) := by
  obtain ⟨m', rfl⟩ : ∃ m', m = m' + 1 :=
    ⟨m - 1, by omega⟩
  rw [List.replicate_succ, analyze_cons,
    analyzeLoop_cons_ne_full _ _ (by decide : ¬(str "-r") = ['-', '-']),
    rep_analyzeStep_first, rep_analyzeLoop]
  rfl

theorem rep_step_ok (n k i : Nat) (hk : k < n) :
    stepToken (repPSt n k) (repToken n i) = .ok (repPSt n (k + 1)) := by
  have hne : (n != 0) = true := by
    simp only [bne_iff_ne, ne_eq]
    omega
  simp [stepToken, repPSt, initParseSt, repToken, parseOption, repFlag,
    Repeatable.truthy, hne, getName, hasName, mget, mhas, cellGet, cellPush,
    geMax, List.replicate_succ', Nat.not_le.mpr hk]

theorem rep_step_err (n i : Nat) (hn : 1 ≤ n) :
    stepToken (repPSt n n) (repToken n i) =
      .error (.parseError .tooManyRepetitions) := by
  have hne : (n != 0) = true := by
    simp only [bne_iff_ne, ne_eq]
    omega
  simp [stepToken, repPSt, initParseSt, repToken, parseOption, repFlag,
    Repeatable.truthy, hne, getName, hasName, mget, mhas, cellGet, cellPush,
    geMax]

theorem rep_step_first (n : Nat) (hn : 1 ≤ n) :
    stepToken (initParseSt (repSpec n)) (repToken n 0) =
      .ok (repPSt n 1) := by
  have hne : (n != 0) = true := by
    simp only [bne_iff_ne, ne_eq]
    omega
  simp [stepToken, repPSt, initParseSt, repToken, parseOption, repFlag,
    Repeatable.truthy, hne, getName, hasName, mget, mhas, cellGet, cellPush,
    geMax, setEach, mset, Nat.pos_iff_ne_zero.mp hn, repSpec]

theorem rep_loop_ok (n : Nat) (j : Nat) :
    ∀ k i, k + j ≤ n →
      parseLoop (repPSt n k) (repTokens n j i) = .ok (repPSt n (k + j)) := by
  induction j with
  | zero => intro k i _; rfl
  | succ j ih =>
    intro k i hkj
    rw [repTokens, parseLoop, rep_step_ok n k i (by omega)]
    have heq : k + 1 + j = k + (j + 1) := by omega
    exact heq ▸ ih (k + 1) (i + 1) (by omega)

theorem rep_loop_err (n : Nat) (hn : 1 ≤ n) (j : Nat) :
    ∀ k i, k + j = n + 1 → k ≤ n →
      parseLoop (repPSt n k) (repTokens n j i) =
        .error (.parseError .tooManyRepetitions) := by
  induction j with
  | zero => intro k i hkj hk; omega
  | succ j ih =>
    intro k i hkj hk
    rcases Nat.lt_or_ge k n with hlt | hge
    · rw [repTokens, parseLoop, rep_step_ok n k i hlt]
      exact ih (k + 1) (i + 1) (by omega) (by omega)
    · have hkn : k = n := by omega
      rw [hkn, repTokens, parseLoop, rep_step_err n i hn]

/-- C8: for an option declared `isRepeatable: n` with finite positive
`n`, parsing exactly `n` repetitions succeeds and binds `n`
empty-string placeholders, while `n + 1` repetitions fail with the
"Too many repetitions" parse error. -/
theorem c8_finite_repetition_bound (n : Nat) (hn : 1 ≤ n) :
    parse (List.replicate n (str "-r")) (repSpec n) = .ok (repResult n) ∧
    parse (List.replicate (n + 1) (str "-r")) (repSpec n) =
      .error (.parseError .tooManyRepetitions) := by
  obtain ⟨m, rfl⟩ : ∃ m, n = m + 1 := ⟨n - 1, by omega⟩
  constructor
  · rw [parse_via (rep_analyze (m + 1) (m + 1) hn), repTokens, parseLoop,
      rep_step_first (m + 1) hn]
    show (match parseLoop (repPSt (m + 1) 1) (repTokens (m + 1) m 1) with
      | .error e => (.error e : Except ParseErr ParseResult)
      | .ok st => validate (repStAfter (m + 1)).finalState st) = _
    have hloop := rep_loop_ok (m + 1) m 1 1 (by omega)
    have h1m : 1 + m = m + 1 := by omega
    rw [h1m] at hloop
    rw [hloop]
    simp [validate, repPSt, repStAfter, initAnalyzeState, updateCurrentCommand,
      baseAnalyzeState, mergeOptions, repSpec, repFlag, setEach, mset,
      AnalyzeState.finalState, checkDepends, checkExclusive, checkRequired,
      initParseSt, cellGet, repResult, getMinArgs, getMaxArgs,
      Command.hasAction, Command.requiresSubcommand, Command.options,
      Command.args, Command.subcommands, Command.parserDirectives]
  · rw [parse_via (rep_analyze (m + 1) (m + 2) (by omega)), repTokens,
      parseLoop, rep_step_first (m + 1) hn]
    show (match parseLoop (repPSt (m + 1) 1) (repTokens (m + 1) (m + 1) 1) with
      | .error e => (.error e : Except ParseErr ParseResult)
      | .ok st => validate (repStAfter (m + 1)).finalState st) = _
    rw [rep_loop_err (m + 1) hn (m + 1) 1 1 (by omega) (by omega)]

theorem c8_finite_repetition_bound_witness :
    parse (List.replicate 2 (str "-r")) (repSpec 2) = .ok (repResult 2) ∧
    parse (List.replicate 3 (str "-r")) (repSpec 2) =
      .error (.parseError .tooManyRepetitions) :=
  c8_finite_repetition_bound 2 (by decide)

end RunFig
